import Mathlib

/-!
Shallow embedding of the WRK I/O completion object module
(`base/ntos/io/iomgr/complete.c`) and proofs about it.

The module implements the executive I/O completion port: a completion
queue (a KQUEUE collaborator) fed by standalone mini-completion packets
allocated from a two-tier lookaside pool (per-processor tier `P`, then
system tier `L`, then the general pool), or by completion records embedded
in IRPs.  Collaborator routines that live outside this module
(`KeInsertQueue`, `KeRemoveQueue`, `KeRundownQueue`, `KeReadStateQueue`,
`ExFreePool`, `ExReturnPoolQuota`, the pool allocators) are modelled from
the specification and marked as such in their doc comments.
-/

namespace WrkComplete

/-- NTSTATUS success code. -/
def STATUS_SUCCESS : Nat := 0x00000000

/-- NTSTATUS returned when a wait elapses its timeout. -/
def STATUS_TIMEOUT : Nat := 0x00000102

/-- NTSTATUS returned when a wait is aborted by a user-mode APC. -/
def STATUS_USER_APC : Nat := 0x000000C0

/-- NTSTATUS returned when packet allocation fails at every tier. -/
def STATUS_INSUFFICIENT_RESOURCES : Nat := 0xC000009A

/-- NTSTATUS for a wrong information class on a query. -/
def STATUS_INVALID_INFO_CLASS : Nat := 0xC0000003

/-- NTSTATUS for a wrong information length on a query. -/
def STATUS_INFO_LENGTH_MISMATCH : Nat := 0xC0000004

/-- The I/O status block: a status code plus an information word. -/
structure IO_STATUS_BLOCK where
  Status : Nat
  Information : Nat
deriving DecidableEq

/-- The packet-type tag stored in a completion packet.  In the C source
these are the `IopCompletionPacketIrp` / `...Mini` / `...Quota` constants
read through the overlapping `PacketType` field of the union layout. -/
inductive IOP_PACKET_TYPE where
  | IopCompletionPacketIrp
  | IopCompletionPacketMini
  | IopCompletionPacketQuota
deriving DecidableEq

/-- A standalone mini completion packet (`IOP_MINI_COMPLETION_PACKET`).
`id` stands for the packet's address (pointer identity).  `quotaCharged`
models the pool-block quota state owned by the pool-manager collaborator:
set by `ExAllocatePoolWithQuotaTag`, cleared by a quota release. -/
structure IOP_MINI_COMPLETION_PACKET where
  id : Nat
  PacketType : IOP_PACKET_TYPE
  KeyContext : Nat
  ApcContext : Nat
  IoStatus : Nat
  IoStatusInformation : Nat
  quotaCharged : Bool
deriving DecidableEq

/-- The slice of an IRP that `NtRemoveIoCompletion` reads: the user APC
context, the completion key and the I/O status block.  `id` stands for the
IRP's address. -/
structure IRP where
  id : Nat
  UserApcContext : Nat
  CompletionKey : Nat
  IoStatus : IO_STATUS_BLOCK
deriving DecidableEq

/-- One entry of the completion queue.  In the C source both variants are
discovered by list-entry address alone and disambiguated by the embedded
`PacketType` tag (`IopCompletionPacketIrp` for the embedded variant); the
constructor tag plays that role here, per the spec's tagged-union design
note. -/
inductive QueueEntry where
  | irpEntry (irp : IRP)
  | miniEntry (pkt : IOP_MINI_COMPLETION_PACKET)
deriving DecidableEq

/-- One lookaside tier (`GENERAL_LOOKASIDE`): a stack of free packets with
a configured maximum depth and the counters the source updates. -/
structure GENERAL_LOOKASIDE where
  ListHead : List IOP_MINI_COMPLETION_PACKET
  Depth : Nat
  TotalAllocates : Nat
  AllocateMisses : Nat
  TotalFrees : Nat
  FreeMisses : Nat
deriving DecidableEq

/-- The two lookaside tiers reached through
`Prcb->PPLookasideList[LookasideCompletionList]`: the per-processor tier
`P` and the system-wide tier `L`. -/
structure PPLookaside where
  P : GENERAL_LOOKASIDE
  L : GENERAL_LOOKASIDE
deriving DecidableEq

/-- Modelled from the spec: quota release ("reversing any quota charge").
`ExReturnPoolQuota` releases the charge recorded in the pool block and
clears it; on an uncharged block nothing is released.  Returns the packet
together with the number of quota releases performed (0 or 1). -/
def ExReturnPoolQuota (pkt : IOP_MINI_COMPLETION_PACKET) :
    IOP_MINI_COMPLETION_PACKET × Nat :=
  if pkt.quotaCharged then ({ pkt with quotaCharged := false }, 1) else (pkt, 0)

/-- Modelled from the spec: releasing a block to the general heap reverses
any quota charge still recorded on it.  Returns the number of quota
releases performed (0 or 1). -/
def ExFreePool (pkt : IOP_MINI_COMPLETION_PACKET) : Nat :=
  if pkt.quotaCharged then 1 else 0

/-- Modelled from the spec: `Insert(entry)` appends to the FIFO tail of
the completion queue and never blocks the inserter. -/
def KeInsertQueue (queue : List QueueEntry) (entry : QueueEntry) :
    List QueueEntry :=
  queue ++ [entry]

/-- Modelled from the spec: `Depth()` is the current count of pending
entries ( `KeReadStateQueue` ). -/
def KeReadStateQueue (queue : List QueueEntry) : Nat :=
  queue.length

/-- The outcome of the blocking wait inside `KeRemoveQueue`, supplied as
an oracle: the wait either finds an entry deliverable (`ready`), elapses
its timeout (`timedOut`), or is aborted by a user APC (`apc`). -/
inductive WaitSignal where
  | ready
  | timedOut
  | apc
deriving DecidableEq

/-- The value `KeRemoveQueue` hands back: a queue entry, or the
`STATUS_TIMEOUT` / `STATUS_USER_APC` distinguished values. -/
inductive KRemoveResult where
  | entry (e : QueueEntry)
  | timeout
  | userApc
deriving DecidableEq

/-- Modelled from the spec: `Remove` pops the FIFO head when the wait is
satisfied; an elapsed timeout returns `Timeout` and an externally aborted
wait returns `Cancelled`, in both cases without side effects on the queue
and without consuming an entry.  An empty queue with a satisfied wait is
reported as a timeout (the zero-timeout poll). -/
def KeRemoveQueue (queue : List QueueEntry) (signal : WaitSignal) :
    KRemoveResult × List QueueEntry :=
  match signal with
  | WaitSignal.timedOut => (KRemoveResult.timeout, queue)
  | WaitSignal.apc => (KRemoveResult.userApc, queue)
  | WaitSignal.ready =>
      match queue with
      | e :: rest => (KRemoveResult.entry e, rest)
      | [] => (KRemoveResult.timeout, queue)

/-- Modelled from the spec: `Rundown` atomically drains the queue and
returns the list of entries that were pending and never delivered;
`KeRundownQueue` returns NULL (here `none`) when the queue is empty. -/
def KeRundownQueue (queue : List QueueEntry) :
    Option (List QueueEntry) × List QueueEntry :=
  match queue with
  | [] => (none, [])
  | es => (some es, [])

/-- Result of `IopFreeMiniPacket`: the new pool state, the number of quota
releases performed, and whether the packet went back to the general heap. -/
structure FreeResult where
  pool : PPLookaside
  quotaReleases : Nat
  heapFreed : Bool
deriving DecidableEq

/-- `IopFreeMiniPacket` (complete.c:421-458): bump `TotalFrees` on the
per-processor tier; if it is at depth, record a miss and try the system
tier; if that too is at depth, record a miss and free the packet to pool;
otherwise release the quota if the packet is quota-typed and push the
packet onto the chosen tier. -/
def IopFreeMiniPacket (pool : PPLookaside)
    (MiniPacket : IOP_MINI_COMPLETION_PACKET) : FreeResult :=
  let P0 : GENERAL_LOOKASIDE := { pool.P with TotalFrees := pool.P.TotalFrees + 1 }
  if P0.ListHead.length ≥ P0.Depth then
    let P1 : GENERAL_LOOKASIDE := { P0 with FreeMisses := P0.FreeMisses + 1 }
    let L0 : GENERAL_LOOKASIDE := { pool.L with TotalFrees := pool.L.TotalFrees + 1 }
    if L0.ListHead.length ≥ L0.Depth then
      let L1 : GENERAL_LOOKASIDE := { L0 with FreeMisses := L0.FreeMisses + 1 }
      { pool := { P := P1, L := L1 }, quotaReleases := ExFreePool MiniPacket,
        heapFreed := true }
    else
      let pr :=
        if MiniPacket.PacketType = IOP_PACKET_TYPE.IopCompletionPacketQuota then
          ExReturnPoolQuota MiniPacket
        else (MiniPacket, 0)
      { pool := { P := P1, L := { L0 with ListHead := pr.1 :: L0.ListHead } },
        quotaReleases := pr.2, heapFreed := false }
  else
    let pr :=
      if MiniPacket.PacketType = IOP_PACKET_TYPE.IopCompletionPacketQuota then
        ExReturnPoolQuota MiniPacket
      else (MiniPacket, 0)
    { pool := { P := { P0 with ListHead := pr.1 :: P0.ListHead }, L := pool.L },
      quotaReleases := pr.2, heapFreed := false }

/-- Result of `IoSetIoCompletion`: the returned status, the new pool and
queue states, and the identity of the packet used (if any). -/
structure SetResult where
  status : Nat
  pool : PPLookaside
  queue : List QueueEntry
  allocatedId : Option Nat
deriving DecidableEq

/-- `IoSetIoCompletion` (complete.c:345-418): bump `TotalAllocates` and
pop the per-processor tier; on a miss, record it and pop the system tier;
on a second miss, record it and fall back to the general heap —
quota-charged (`ExAllocatePoolWithQuotaTag`, packet type `Quota`) when
`Quota` is set, else a best-effort low-priority allocation.  `heapAlloc`
is the oracle for that collaborator heap-allocation step: `some fresh` is
a fresh block at address `fresh`, `none` is failure (including the
swallowed quota exception).  If a packet was obtained its fields are
installed and it is inserted into the queue; otherwise the routine returns
`STATUS_INSUFFICIENT_RESOURCES`. -/
def IoSetIoCompletion (pool : PPLookaside) (queue : List QueueEntry)
    (KeyContext ApcContext IoStatus IoStatusInformation : Nat) (Quota : Bool)
    (heapAlloc : Option Nat) : SetResult :=
  let P0 : GENERAL_LOOKASIDE := { pool.P with TotalAllocates := pool.P.TotalAllocates + 1 }
  match P0.ListHead with
  | pkt :: rest =>
      let pkt' := { pkt with
        PacketType := IOP_PACKET_TYPE.IopCompletionPacketMini,
        KeyContext := KeyContext, ApcContext := ApcContext,
        IoStatus := IoStatus, IoStatusInformation := IoStatusInformation }
      { status := STATUS_SUCCESS,
        pool := { P := { P0 with ListHead := rest }, L := pool.L },
        queue := KeInsertQueue queue (QueueEntry.miniEntry pkt'),
        allocatedId := some pkt.id }
  | [] =>
      let P1 : GENERAL_LOOKASIDE := { P0 with AllocateMisses := P0.AllocateMisses + 1 }
      let L0 : GENERAL_LOOKASIDE := { pool.L with TotalAllocates := pool.L.TotalAllocates + 1 }
      match L0.ListHead with
      | pkt :: rest =>
          let pkt' := { pkt with
            PacketType := IOP_PACKET_TYPE.IopCompletionPacketMini,
            KeyContext := KeyContext, ApcContext := ApcContext,
            IoStatus := IoStatus, IoStatusInformation := IoStatusInformation }
          { status := STATUS_SUCCESS,
            pool := { P := P1, L := { L0 with ListHead := rest } },
            queue := KeInsertQueue queue (QueueEntry.miniEntry pkt'),
            allocatedId := some pkt.id }
      | [] =>
          let L1 : GENERAL_LOOKASIDE := { L0 with AllocateMisses := L0.AllocateMisses + 1 }
          match heapAlloc with
          | some fresh =>
              let pkt' : IOP_MINI_COMPLETION_PACKET :=
                { id := fresh,
                  PacketType :=
                    if Quota then IOP_PACKET_TYPE.IopCompletionPacketQuota
                    else IOP_PACKET_TYPE.IopCompletionPacketMini,
                  KeyContext := KeyContext, ApcContext := ApcContext,
                  IoStatus := IoStatus,
                  IoStatusInformation := IoStatusInformation,
                  quotaCharged := Quota }
              { status := STATUS_SUCCESS, pool := { P := P1, L := L1 },
                queue := KeInsertQueue queue (QueueEntry.miniEntry pkt'),
                allocatedId := some fresh }
          | none =>
              { status := STATUS_INSUFFICIENT_RESOURCES,
                pool := { P := P1, L := L1 }, queue := queue,
                allocatedId := none }

/-- `NtSetIoCompletion` (complete.c:207-239): over a successfully
referenced port object it is exactly `IoSetIoCompletion` with
`Quota = TRUE`.  (The handle-reference step is the object-manager
collaborator; the claim assumes a valid port reference.) -/
def NtSetIoCompletion (pool : PPLookaside) (queue : List QueueEntry)
    (KeyContext ApcContext IoStatus IoStatusInformation : Nat)
    (heapAlloc : Option Nat) : SetResult :=
  IoSetIoCompletion pool queue KeyContext ApcContext IoStatus
    IoStatusInformation true heapAlloc

/-- Result of `NtRemoveIoCompletion`: the returned status, the caller's
three output variables (`none` when a write did not happen), the new queue
and pool states, the list of IRPs handed to `IoFreeIrp`, and the number of
quota releases performed by the packet free. -/
structure RemoveResult where
  status : Nat
  KeyContext : Option Nat
  ApcContext : Option Nat
  IoStatusBlock : Option IO_STATUS_BLOCK
  queue : List QueueEntry
  pool : PPLookaside
  freedIrps : List Nat
  quotaReleases : Nat
deriving DecidableEq

/-- `NtRemoveIoCompletion` (complete.c:242-342), over a successfully
referenced port object.  `KeRemoveQueue` may hand back `STATUS_TIMEOUT` or
`STATUS_USER_APC`, which become the service status with nothing else done.
For a removed entry the status is set to success and the completion
information is captured into locals; on the IRP tag the fields are read
from the owning IRP, which is then released via `IoFreeIrp`; otherwise the
fields are read from the mini packet, which is then returned to the pool
via `IopFreeMiniPacket`.  Only afterwards are the caller's output
variables written; `writesOk` is the oracle for the guarded user-memory
writes: when `false` the writes fault, the exception filter swallows the
fault and the status stays success. -/
def NtRemoveIoCompletion (pool : PPLookaside) (queue : List QueueEntry)
    (signal : WaitSignal) (writesOk : Bool) : RemoveResult :=
  match KeRemoveQueue queue signal with
  | (KRemoveResult.timeout, q') =>
      { status := STATUS_TIMEOUT, KeyContext := none, ApcContext := none,
        IoStatusBlock := none, queue := q', pool := pool, freedIrps := [],
        quotaReleases := 0 }
  | (KRemoveResult.userApc, q') =>
      { status := STATUS_USER_APC, KeyContext := none, ApcContext := none,
        IoStatusBlock := none, queue := q', pool := pool, freedIrps := [],
        quotaReleases := 0 }
  | (KRemoveResult.entry e, q') =>
      match e with
      | QueueEntry.irpEntry irp =>
          let LocalApcContext := irp.UserApcContext
          let LocalKeyContext := irp.CompletionKey
          let LocalIoStatusBlock := irp.IoStatus
          { status := STATUS_SUCCESS,
            KeyContext := if writesOk then some LocalKeyContext else none,
            ApcContext := if writesOk then some LocalApcContext else none,
            IoStatusBlock := if writesOk then some LocalIoStatusBlock else none,
            queue := q', pool := pool, freedIrps := [irp.id],
            quotaReleases := 0 }
      | QueueEntry.miniEntry pkt =>
          let LocalApcContext := pkt.ApcContext
          let LocalKeyContext := pkt.KeyContext
          let LocalIoStatusBlock : IO_STATUS_BLOCK :=
            { Status := pkt.IoStatus, Information := pkt.IoStatusInformation }
          let fr := IopFreeMiniPacket pool pkt
          { status := STATUS_SUCCESS,
            KeyContext := if writesOk then some LocalKeyContext else none,
            ApcContext := if writesOk then some LocalApcContext else none,
            IoStatusBlock := if writesOk then some LocalIoStatusBlock else none,
            queue := q', pool := fr.pool, freedIrps := [],
            quotaReleases := fr.quotaReleases }

/-- The only valid information class of `NtQueryIoCompletion`. -/
def IoCompletionBasicInformation : Nat := 0

/-- `sizeof(IO_COMPLETION_BASIC_INFORMATION)`, asserted equal to
`sizeof(ULONG)` in the source. -/
def sizeofBasicInformation : Nat := 4

/-- Result of `NtQueryIoCompletion`: the returned status, the `Depth`
field written to the caller's record (`none` when not written), the
optional return-length write, and whether the port object was referenced
at all. -/
structure QueryResult where
  status : Nat
  DepthOut : Option Nat
  ReturnLengthOut : Option Nat
  referencedPort : Bool
  queue : List QueueEntry
deriving DecidableEq

/-- `NtQueryIoCompletion` (complete.c:137-204), with a valid handle.
After probing, an information class other than
`IoCompletionBasicInformation` returns `STATUS_INVALID_INFO_CLASS`, and a
length different from `sizeof(IO_COMPLETION_BASIC_INFORMATION)` returns
`STATUS_INFO_LENGTH_MISMATCH` — both before the port object is referenced
and with no effect on it.  Otherwise the queue depth is read via
`KeReadStateQueue` and written back, together with the record length if
requested. -/
def NtQueryIoCompletion (queue : List QueueEntry)
    (IoCompletionInformationClass IoCompletionInformationLength : Nat)
    (wantReturnLength : Bool) : QueryResult :=
  if IoCompletionInformationClass ≠ IoCompletionBasicInformation then
    { status := STATUS_INVALID_INFO_CLASS, DepthOut := none,
      ReturnLengthOut := none, referencedPort := false, queue := queue }
  else if IoCompletionInformationLength ≠ sizeofBasicInformation then
    { status := STATUS_INFO_LENGTH_MISMATCH, DepthOut := none,
      ReturnLengthOut := none, referencedPort := false, queue := queue }
  else
    { status := STATUS_SUCCESS, DepthOut := some (KeReadStateQueue queue),
      ReturnLengthOut :=
        if wantReturnLength then some sizeofBasicInformation else none,
      referencedPort := true, queue := queue }

/-- Accumulated result of `IopDeleteIoCompletion`: the pool state after
the standalone packets were returned to it, the IRPs handed to
`IoFreeIrp`, the packet ids handed to `IopFreeMiniPacket`, and the total
number of quota releases. -/
structure DeleteResult where
  pool : PPLookaside
  freedIrps : List Nat
  freedPacketIds : List Nat
  quotaReleases : Nat
deriving DecidableEq

/-- One iteration of the rundown loop body of `IopDeleteIoCompletion`:
an IRP-tagged entry is released via `IoFreeIrp`, any other entry is a
mini packet returned via `IopFreeMiniPacket`. -/
def IopDeleteFreeEntry (acc : DeleteResult) (e : QueueEntry) : DeleteResult :=
  match e with
  | QueueEntry.irpEntry irp =>
      { acc with freedIrps := acc.freedIrps ++ [irp.id] }
  | QueueEntry.miniEntry pkt =>
      let fr := IopFreeMiniPacket acc.pool pkt
      { acc with
        pool := fr.pool,
        freedPacketIds := acc.freedPacketIds ++ [pkt.id],
        quotaReleases := acc.quotaReleases + fr.quotaReleases }

/-- `IopDeleteIoCompletion` (complete.c:461-489): run down the queue; if
`KeRundownQueue` returned no entries nothing is released, otherwise every
entry of the returned list is released exactly once, by tag, via the loop
body `IopDeleteFreeEntry`. -/
def IopDeleteIoCompletion (pool : PPLookaside) (queue : List QueueEntry) :
    DeleteResult :=
  match (KeRundownQueue queue).1 with
  | none =>
      { pool := pool, freedIrps := [], freedPacketIds := [],
        quotaReleases := 0 }
  | some entries =>
      entries.foldl IopDeleteFreeEntry
        { pool := pool, freedIrps := [], freedPacketIds := [],
          quotaReleases := 0 }

/-- The ids of the IRP-tagged entries of a queue, in order. -/
def irpIdsOf (queue : List QueueEntry) : List Nat :=
  queue.filterMap fun e =>
    match e with
    | QueueEntry.irpEntry irp => some irp.id
    | QueueEntry.miniEntry _ => none

/-- The ids of the standalone mini-packet entries of a queue, in order. -/
def miniIdsOf (queue : List QueueEntry) : List Nat :=
  queue.filterMap fun e =>
    match e with
    | QueueEntry.irpEntry _ => none
    | QueueEntry.miniEntry pkt => some pkt.id

/-- No packet sitting on either lookaside tier carries an outstanding
quota charge. -/
def tiersClean (pool : PPLookaside) : Prop :=
  (∀ p ∈ pool.P.ListHead, p.quotaCharged = false) ∧
  (∀ p ∈ pool.L.ListHead, p.quotaCharged = false)

instance (pool : PPLookaside) : Decidable (tiersClean pool) := by
  unfold tiersClean
  infer_instance

/-- Modelled from the spec: the completion queue with its concurrency
admission state — pending entries (FIFO), the count of currently active
threads, the concurrency limit, and the blocked waiters (FIFO). -/
structure CQueue where
  entries : List Nat
  active : Nat
  limit : Nat
  waiters : List Nat
deriving DecidableEq

/-- Outcome of one `Remove` call for the calling thread. -/
inductive CRemoveOutcome where
  | delivered (e : Nat)
  | blocked
deriving DecidableEq

/-- Modelled from the spec: `Remove` under the concurrency admission rule
(§4.2), with FIFO wake order per the design notes.  A caller that was
active de-activates on re-entry; if capacity and a pending entry then
admit a blocked waiter, the head waiter is woken and handed the head entry
(returned as a hand-off pair); then the caller itself receives the head
entry if one is pending and the ceiling admits it, else it blocks as a
waiter. -/
def cqRemove (q : CQueue) (t : Nat) (wasActive : Bool) :
    CRemoveOutcome × List (Nat × Nat) × CQueue :=
  let q1 : CQueue := if wasActive then { q with active := q.active - 1 } else q
  let wake : List (Nat × Nat) × CQueue :=
    match q1.waiters, q1.entries with
    | w :: ws, e :: es =>
        if q1.active < q1.limit then
          ([(w, e)],
           { q1 with
             waiters := ws, entries := es, active := q1.active + 1 })
        else ([], q1)
    | _, _ => ([], q1)
  let q2 := wake.2
  match q2.entries with
  | e :: es =>
      if q2.active < q2.limit then
        (CRemoveOutcome.delivered e,
         (wake.1, { q2 with entries := es, active := q2.active + 1 }))
      else
        (CRemoveOutcome.blocked,
         (wake.1, { q2 with waiters := q2.waiters ++ [t] }))
  | [] =>
      (CRemoveOutcome.blocked,
       (wake.1, { q2 with waiters := q2.waiters ++ [t] }))

/-- A sequence of fresh (not-yet-active) consumers each calling `Remove`
once, in order; returns their outcomes and the final queue state. -/
def cqRemoveManyFresh (q : CQueue) (ts : List Nat) :
    List CRemoveOutcome × CQueue :=
  match ts with
  | [] => ([], q)
  | t :: ts' =>
      let r := cqRemove q t false
      let rst := cqRemoveManyFresh r.2.2 ts'
      (r.1 :: rst.1, rst.2)

/-- An empty lookaside tier with depth limit 2, for concrete evaluations. -/
def emptyGL : GENERAL_LOOKASIDE :=
  { ListHead := [], Depth := 2, TotalAllocates := 0, AllocateMisses := 0,
    TotalFrees := 0, FreeMisses := 0 }

/-- A pool with both tiers empty, for concrete evaluations. -/
def emptyPool : PPLookaside := { P := emptyGL, L := emptyGL }

/-- A pooled (uncharged, mini-typed) packet at address 42, for concrete
evaluations. -/
def pkt42 : IOP_MINI_COMPLETION_PACKET :=
  { id := 42, PacketType := IOP_PACKET_TYPE.IopCompletionPacketMini,
    KeyContext := 0, ApcContext := 0, IoStatus := 0, IoStatusInformation := 0,
    quotaCharged := false }

/-- A quota-charged heap packet at address 9, for concrete evaluations. -/
def pkt9 : IOP_MINI_COMPLETION_PACKET :=
  { id := 9, PacketType := IOP_PACKET_TYPE.IopCompletionPacketQuota,
    KeyContext := 1, ApcContext := 2, IoStatus := 3, IoStatusInformation := 4,
    quotaCharged := true }

/-- A concrete IRP at address 7, for concrete evaluations. -/
def irp7 : IRP :=
  { id := 7, UserApcContext := 21, CompletionKey := 22,
    IoStatus := { Status := 23, Information := 24 } }

/-- A pool whose per-processor tier holds exactly `pkt42`, for concrete
evaluations. -/
def pool42 : PPLookaside :=
  { P := { emptyGL with ListHead := [pkt42] }, L := emptyGL }

/-- The field-installation step of `IoSetIoCompletion` (complete.c:407-411)
applied to a packet popped from a lookaside tier (packet type
`IopCompletionPacketMini`). -/
def installMini (pkt : IOP_MINI_COMPLETION_PACKET) (k a s i : Nat) :
    IOP_MINI_COMPLETION_PACKET :=
  { pkt with
    PacketType := IOP_PACKET_TYPE.IopCompletionPacketMini,
    KeyContext := k, ApcContext := a, IoStatus := s,
    IoStatusInformation := i }

/-- C6: on a valid port reference, an elapsed timeout makes
`NtRemoveIoCompletion` return `STATUS_TIMEOUT` and an externally aborted
wait (user APC) makes it return `STATUS_USER_APC`; in both outcomes no
queue entry is consumed, no packet or IRP is freed, no quota is released,
and the caller's output variables are not written. -/
theorem NtRemoveIoCompletion_timeout_apc (pool : PPLookaside)
    (queue : List QueueEntry) (writesOk : Bool) :
    NtRemoveIoCompletion pool queue WaitSignal.timedOut writesOk =
      { status := STATUS_TIMEOUT, KeyContext := none, ApcContext := none,
        IoStatusBlock := none, queue := queue, pool := pool, freedIrps := [],
        quotaReleases := 0 } ∧
    NtRemoveIoCompletion pool queue WaitSignal.apc writesOk =
      { status := STATUS_USER_APC, KeyContext := none, ApcContext := none,
        IoStatusBlock := none, queue := queue, pool := pool, freedIrps := [],
        quotaReleases := 0 } :=
  ⟨rfl, rfl⟩

/-- Witness for C6 at a concrete port state. -/
theorem NtRemoveIoCompletion_timeout_apc_witness :
    NtRemoveIoCompletion emptyPool [QueueEntry.irpEntry irp7]
        WaitSignal.timedOut true =
      { status := STATUS_TIMEOUT, KeyContext := none, ApcContext := none,
        IoStatusBlock := none, queue := [QueueEntry.irpEntry irp7],
        pool := emptyPool, freedIrps := [], quotaReleases := 0 } :=
  (NtRemoveIoCompletion_timeout_apc emptyPool [QueueEntry.irpEntry irp7]
    true).1

/-- C2: for a successfully removed entry, `NtRemoveIoCompletion` branches
on the entry's tag: on the IRP variant the key context, APC context and
I/O status block are read from the owning IRP, which is then released via
`IoFreeIrp`; on the standalone variant the four fields are read from the
packet, which is then returned to the pool via `IopFreeMiniPacket`; in
both cases the extracted values are returned and the status is success. -/
theorem NtRemoveIoCompletion_extract (pool : PPLookaside)
    (rest : List QueueEntry) :
    (∀ irp : IRP,
      NtRemoveIoCompletion pool (QueueEntry.irpEntry irp :: rest)
          WaitSignal.ready true =
        { status := STATUS_SUCCESS, KeyContext := some irp.CompletionKey,
          ApcContext := some irp.UserApcContext,
          IoStatusBlock := some irp.IoStatus, queue := rest, pool := pool,
          freedIrps := [irp.id], quotaReleases := 0 }) ∧
    (∀ pkt : IOP_MINI_COMPLETION_PACKET,
      NtRemoveIoCompletion pool (QueueEntry.miniEntry pkt :: rest)
          WaitSignal.ready true =
        { status := STATUS_SUCCESS, KeyContext := some pkt.KeyContext,
          ApcContext := some pkt.ApcContext,
          IoStatusBlock :=
            some { Status := pkt.IoStatus,
                   Information := pkt.IoStatusInformation },
          queue := rest, pool := (IopFreeMiniPacket pool pkt).pool,
          freedIrps := [],
          quotaReleases := (IopFreeMiniPacket pool pkt).quotaReleases }) :=
  ⟨fun _ => rfl, fun _ => rfl⟩

/-- Witness for C2 at concrete entries. -/
theorem NtRemoveIoCompletion_extract_witness :
    NtRemoveIoCompletion emptyPool [QueueEntry.irpEntry irp7]
        WaitSignal.ready true =
      { status := STATUS_SUCCESS, KeyContext := some irp7.CompletionKey,
        ApcContext := some irp7.UserApcContext,
        IoStatusBlock := some irp7.IoStatus, queue := [], pool := emptyPool,
        freedIrps := [irp7.id], quotaReleases := 0 } ∧
    NtRemoveIoCompletion emptyPool [QueueEntry.miniEntry pkt9]
        WaitSignal.ready true =
      { status := STATUS_SUCCESS, KeyContext := some pkt9.KeyContext,
        ApcContext := some pkt9.ApcContext,
        IoStatusBlock :=
          some { Status := pkt9.IoStatus,
                 Information := pkt9.IoStatusInformation },
        queue := [], pool := (IopFreeMiniPacket emptyPool pkt9).pool,
        freedIrps := [],
        quotaReleases := (IopFreeMiniPacket emptyPool pkt9).quotaReleases } :=
  ⟨(NtRemoveIoCompletion_extract emptyPool []).1 irp7,
   (NtRemoveIoCompletion_extract emptyPool []).2 pkt9⟩

/-- C10: on the success path the entry's fields are captured into locals
and the backing packet or IRP is freed before the caller's output
variables are written; if the guarded writes fault, the fault is swallowed
(status stays `STATUS_SUCCESS`), the entry stays consumed and freed, and
the extracted values are lost. -/
theorem NtRemoveIoCompletion_write_fault (pool : PPLookaside)
    (rest : List QueueEntry) :
    (∀ pkt : IOP_MINI_COMPLETION_PACKET,
      NtRemoveIoCompletion pool (QueueEntry.miniEntry pkt :: rest)
          WaitSignal.ready false =
        { status := STATUS_SUCCESS, KeyContext := none, ApcContext := none,
          IoStatusBlock := none, queue := rest,
          pool := (IopFreeMiniPacket pool pkt).pool, freedIrps := [],
          quotaReleases := (IopFreeMiniPacket pool pkt).quotaReleases }) ∧
    (∀ irp : IRP,
      NtRemoveIoCompletion pool (QueueEntry.irpEntry irp :: rest)
          WaitSignal.ready false =
        { status := STATUS_SUCCESS, KeyContext := none, ApcContext := none,
          IoStatusBlock := none, queue := rest, pool := pool,
          freedIrps := [irp.id], quotaReleases := 0 }) :=
  ⟨fun _ => rfl, fun _ => rfl⟩

/-- Witness for C10 at concrete entries. -/
theorem NtRemoveIoCompletion_write_fault_witness :
    NtRemoveIoCompletion emptyPool [QueueEntry.miniEntry pkt9]
        WaitSignal.ready false =
      { status := STATUS_SUCCESS, KeyContext := none, ApcContext := none,
        IoStatusBlock := none, queue := [],
        pool := (IopFreeMiniPacket emptyPool pkt9).pool, freedIrps := [],
        quotaReleases := (IopFreeMiniPacket emptyPool pkt9).quotaReleases } :=
  (NtRemoveIoCompletion_write_fault emptyPool []).1 pkt9

/-- C8: `NtQueryIoCompletion` rejects a wrong information class with
`STATUS_INVALID_INFO_CLASS` and a wrong length with
`STATUS_INFO_LENGTH_MISMATCH`, in both cases before referencing the port
object and with no side effect on the queue; with valid arguments it
returns the queue's current depth in the caller's record. -/
theorem NtQueryIoCompletion_args (queue : List QueueEntry)
    (ic len : Nat) (want : Bool) :
    (ic ≠ IoCompletionBasicInformation →
      NtQueryIoCompletion queue ic len want =
        { status := STATUS_INVALID_INFO_CLASS, DepthOut := none,
          ReturnLengthOut := none, referencedPort := false,
          queue := queue }) ∧
    (ic = IoCompletionBasicInformation → len ≠ sizeofBasicInformation →
      NtQueryIoCompletion queue ic len want =
        { status := STATUS_INFO_LENGTH_MISMATCH, DepthOut := none,
          ReturnLengthOut := none, referencedPort := false,
          queue := queue }) ∧
    (ic = IoCompletionBasicInformation → len = sizeofBasicInformation →
      NtQueryIoCompletion queue ic len want =
        { status := STATUS_SUCCESS, DepthOut := some queue.length,
          ReturnLengthOut :=
            if want then some sizeofBasicInformation else none,
          referencedPort := true, queue := queue }) := by
  refine ⟨?_, ?_, ?_⟩
  · intro h
    simp [NtQueryIoCompletion, h]
  · intro h1 h2
    simp [NtQueryIoCompletion, h1, h2]
  · intro h1 h2
    simp [NtQueryIoCompletion, h1, h2, KeReadStateQueue]

/-- Witness for C8 at concrete arguments. -/
theorem NtQueryIoCompletion_args_witness :
    NtQueryIoCompletion [QueueEntry.irpEntry irp7] 3 4 true =
      { status := STATUS_INVALID_INFO_CLASS, DepthOut := none,
        ReturnLengthOut := none, referencedPort := false,
        queue := [QueueEntry.irpEntry irp7] } ∧
    NtQueryIoCompletion [QueueEntry.irpEntry irp7] 0 8 true =
      { status := STATUS_INFO_LENGTH_MISMATCH, DepthOut := none,
        ReturnLengthOut := none, referencedPort := false,
        queue := [QueueEntry.irpEntry irp7] } ∧
    NtQueryIoCompletion [QueueEntry.irpEntry irp7] 0 4 true =
      { status := STATUS_SUCCESS, DepthOut := some 1,
        ReturnLengthOut := some 4, referencedPort := true,
        queue := [QueueEntry.irpEntry irp7] } :=
  ⟨(NtQueryIoCompletion_args [QueueEntry.irpEntry irp7] 3 4 true).1
      (by decide),
   (NtQueryIoCompletion_args [QueueEntry.irpEntry irp7] 0 8 true).2.1 rfl
      (by decide),
   (NtQueryIoCompletion_args [QueueEntry.irpEntry irp7] 0 4 true).2.2 rfl
      rfl⟩

/-- The rundown loop accumulates exactly the tagged ids of the processed
entries, in order, for any starting accumulator. -/
theorem IopDeleteFreeEntry_foldl (entries : List QueueEntry) :
    ∀ acc : DeleteResult,
      (entries.foldl IopDeleteFreeEntry acc).freedIrps =
        acc.freedIrps ++ irpIdsOf entries ∧
      (entries.foldl IopDeleteFreeEntry acc).freedPacketIds =
        acc.freedPacketIds ++ miniIdsOf entries := by
  induction entries with
  | nil =>
      intro acc
      simp [irpIdsOf, miniIdsOf]
  | cons e es ih =>
      intro acc
      cases e with
      | irpEntry irp =>
          have h := ih { acc with freedIrps := acc.freedIrps ++ [irp.id] }
          constructor
          · rw [List.foldl_cons]
            simp only [IopDeleteFreeEntry]
            rw [h.1]
            simp [irpIdsOf]
          · rw [List.foldl_cons]
            simp only [IopDeleteFreeEntry]
            rw [h.2]
            simp [miniIdsOf]
      | miniEntry pkt =>
          have h := ih
            { acc with
              pool := (IopFreeMiniPacket acc.pool pkt).pool,
              freedPacketIds := acc.freedPacketIds ++ [pkt.id],
              quotaReleases :=
                acc.quotaReleases + (IopFreeMiniPacket acc.pool pkt).quotaReleases }
          constructor
          · rw [List.foldl_cons]
            simp only [IopDeleteFreeEntry]
            rw [h.1]
            simp [irpIdsOf]
          · rw [List.foldl_cons]
            simp only [IopDeleteFreeEntry]
            rw [h.2]
            simp [miniIdsOf]

/-- C3: `IopDeleteIoCompletion` runs the queue down and releases every
entry pending at rundown exactly once, choosing the path by the entry's
tag (IRP-tagged entries to `IoFreeIrp`, standalone packets to
`IopFreeMiniPacket`), discarding all field values; it is total (never
fails), and when rundown returns no entries it releases nothing. -/
theorem IopDeleteIoCompletion_frees (pool : PPLookaside)
    (queue : List QueueEntry) :
    (IopDeleteIoCompletion pool queue).freedIrps = irpIdsOf queue ∧
    (IopDeleteIoCompletion pool queue).freedPacketIds = miniIdsOf queue ∧
    (queue = [] →
      IopDeleteIoCompletion pool queue =
        { pool := pool, freedIrps := [], freedPacketIds := [],
          quotaReleases := 0 }) := by
  cases queue with
  | nil =>
      refine ⟨?_, ?_, fun _ => rfl⟩ <;> simp [IopDeleteIoCompletion,
        KeRundownQueue, irpIdsOf, miniIdsOf]
  | cons e es =>
      have h := IopDeleteFreeEntry_foldl (e :: es)
        { pool := pool, freedIrps := [], freedPacketIds := [],
          quotaReleases := 0 }
      refine ⟨?_, ?_, fun hc => by cases hc⟩
      · simpa [IopDeleteIoCompletion, KeRundownQueue] using h.1
      · simpa [IopDeleteIoCompletion, KeRundownQueue] using h.2

/-- Witness for C3 at a concrete mixed queue and at the empty queue. -/
theorem IopDeleteIoCompletion_frees_witness :
    (IopDeleteIoCompletion emptyPool
        [QueueEntry.irpEntry irp7, QueueEntry.miniEntry pkt9]).freedIrps =
      [7] ∧
    (IopDeleteIoCompletion emptyPool
        [QueueEntry.irpEntry irp7, QueueEntry.miniEntry pkt9]).freedPacketIds =
      [9] ∧
    IopDeleteIoCompletion emptyPool [] =
      { pool := emptyPool, freedIrps := [], freedPacketIds := [],
        quotaReleases := 0 } :=
  ⟨(IopDeleteIoCompletion_frees emptyPool
      [QueueEntry.irpEntry irp7, QueueEntry.miniEntry pkt9]).1,
   (IopDeleteIoCompletion_frees emptyPool
      [QueueEntry.irpEntry irp7, QueueEntry.miniEntry pkt9]).2.1,
   (IopDeleteIoCompletion_frees emptyPool []).2.2 rfl⟩

/-- The packet that `IopFreeMiniPacket` pushes onto a tier keeps its
address and carries no outstanding quota charge, provided a charged packet
is quota-typed (as every queued packet is). -/
theorem pushed_packet_clean (pkt : IOP_MINI_COMPLETION_PACKET)
    (hcoh : pkt.quotaCharged = true →
      pkt.PacketType = IOP_PACKET_TYPE.IopCompletionPacketQuota) :
    (if pkt.PacketType = IOP_PACKET_TYPE.IopCompletionPacketQuota then
        ExReturnPoolQuota pkt
      else (pkt, 0)).1.id = pkt.id ∧
    (if pkt.PacketType = IOP_PACKET_TYPE.IopCompletionPacketQuota then
        ExReturnPoolQuota pkt
      else (pkt, 0)).1.quotaCharged = false := by
  by_cases ht : pkt.PacketType = IOP_PACKET_TYPE.IopCompletionPacketQuota
  · cases hq : pkt.quotaCharged <;> simp [ht, ExReturnPoolQuota, hq]
  · have hq : pkt.quotaCharged = false := by
      cases hq : pkt.quotaCharged
      · rfl
      · exact absurd (hcoh hq) ht
    simp [ht, hq]

/-- C4: `IopFreeMiniPacket` pushes the packet onto the per-processor tier
when it is under its depth limit, else onto the system tier when that is
under its limit, else releases it to the general heap with any quota
charge reversed; the pushed packet carries no outstanding charge, and the
operation is total (never fails or blocks). -/
theorem IopFreeMiniPacket_tiers (pool : PPLookaside)
    (pkt : IOP_MINI_COMPLETION_PACKET)
    (hcoh : pkt.quotaCharged = true →
      pkt.PacketType = IOP_PACKET_TYPE.IopCompletionPacketQuota) :
    (pool.P.ListHead.length < pool.P.Depth →
      (IopFreeMiniPacket pool pkt).heapFreed = false ∧
      (IopFreeMiniPacket pool pkt).pool.L = pool.L ∧
      ∃ p' : IOP_MINI_COMPLETION_PACKET,
        (IopFreeMiniPacket pool pkt).pool.P.ListHead =
          p' :: pool.P.ListHead ∧
        p'.id = pkt.id ∧ p'.quotaCharged = false) ∧
    (¬ pool.P.ListHead.length < pool.P.Depth →
      pool.L.ListHead.length < pool.L.Depth →
      (IopFreeMiniPacket pool pkt).heapFreed = false ∧
      (IopFreeMiniPacket pool pkt).pool.P.ListHead = pool.P.ListHead ∧
      ∃ p' : IOP_MINI_COMPLETION_PACKET,
        (IopFreeMiniPacket pool pkt).pool.L.ListHead =
          p' :: pool.L.ListHead ∧
        p'.id = pkt.id ∧ p'.quotaCharged = false) ∧
    (¬ pool.P.ListHead.length < pool.P.Depth →
      ¬ pool.L.ListHead.length < pool.L.Depth →
      (IopFreeMiniPacket pool pkt).heapFreed = true ∧
      (IopFreeMiniPacket pool pkt).quotaReleases =
        (if pkt.quotaCharged then 1 else 0) ∧
      (IopFreeMiniPacket pool pkt).pool.P.ListHead = pool.P.ListHead ∧
      (IopFreeMiniPacket pool pkt).pool.L.ListHead = pool.L.ListHead) := by
  refine ⟨?_, ?_, ?_⟩
  · intro h
    have hP : ¬ pool.P.ListHead.length ≥ pool.P.Depth := by omega
    refine ⟨?_, ?_, ?_⟩
    · simp [IopFreeMiniPacket, hP]
    · simp [IopFreeMiniPacket, hP]
    · refine ⟨_, ?_, (pushed_packet_clean pkt hcoh).1,
        (pushed_packet_clean pkt hcoh).2⟩
      simp [IopFreeMiniPacket, hP]
  · intro h1 h2
    have hP : pool.P.ListHead.length ≥ pool.P.Depth := by omega
    have hL : ¬ pool.L.ListHead.length ≥ pool.L.Depth := by omega
    refine ⟨?_, ?_, ?_⟩
    · simp [IopFreeMiniPacket, hP, hL]
    · simp [IopFreeMiniPacket, hP, hL]
    · refine ⟨_, ?_, (pushed_packet_clean pkt hcoh).1,
        (pushed_packet_clean pkt hcoh).2⟩
      simp [IopFreeMiniPacket, hP, hL]
  · intro h1 h2
    have hP : pool.P.ListHead.length ≥ pool.P.Depth := by omega
    have hL : pool.L.ListHead.length ≥ pool.L.Depth := by omega
    refine ⟨?_, ?_, ?_, ?_⟩ <;>
      simp [IopFreeMiniPacket, hP, hL, ExFreePool]

/-- Witness for C4: a per-core push, a shared-tier push and a heap release
at concrete states. -/
theorem IopFreeMiniPacket_tiers_witness :
    ((0 : Nat) < 2 ∧
      (IopFreeMiniPacket emptyPool pkt9).heapFreed = false) ∧
    (¬ (1 : Nat) < 1 ∧
      (IopFreeMiniPacket
        { P := { emptyGL with ListHead := [pkt42], Depth := 1 },
          L := emptyGL } pkt9).heapFreed = false) ∧
    (IopFreeMiniPacket
        { P := { emptyGL with ListHead := [pkt42], Depth := 1 },
          L := { emptyGL with ListHead := [pkt42], Depth := 1 } }
        pkt9).heapFreed = true ∧
    (IopFreeMiniPacket
        { P := { emptyGL with ListHead := [pkt42], Depth := 1 },
          L := { emptyGL with ListHead := [pkt42], Depth := 1 } }
        pkt9).quotaReleases = 1 := by
  have hcoh : pkt9.quotaCharged = true →
      pkt9.PacketType = IOP_PACKET_TYPE.IopCompletionPacketQuota :=
    fun _ => rfl
  refine ⟨⟨by decide, ?_⟩, ⟨by decide, ?_⟩, ?_, ?_⟩
  · exact ((IopFreeMiniPacket_tiers emptyPool pkt9 hcoh).1 (by decide)).1
  · exact ((IopFreeMiniPacket_tiers
      { P := { emptyGL with ListHead := [pkt42], Depth := 1 },
        L := emptyGL } pkt9 hcoh).2.1 (by decide) (by decide)).1
  · exact ((IopFreeMiniPacket_tiers
      { P := { emptyGL with ListHead := [pkt42], Depth := 1 },
        L := { emptyGL with ListHead := [pkt42], Depth := 1 } } pkt9
      hcoh).2.2 (by decide) (by decide)).1
  · have h := ((IopFreeMiniPacket_tiers
      { P := { emptyGL with ListHead := [pkt42], Depth := 1 },
        L := { emptyGL with ListHead := [pkt42], Depth := 1 } } pkt9
      hcoh).2.2 (by decide) (by decide)).2.1
    simpa using h

/-- C1: posting a completion (`IoSetIoCompletion`, and `NtSetIoCompletion`
over a valid port reference, which forwards with `Quota = TRUE`) allocates
per-core tier first, then shared tier, then heap (quota-charged exactly
when `Quota` is set); it returns `STATUS_INSUFFICIENT_RESOURCES` if and
only if both tiers miss and the heap allocation yields no packet, in which
case the queue is untouched; on every other outcome it installs the four
fields into the packet, inserts it at the queue tail and returns success. -/
theorem IoSetIoCompletion_post (pool : PPLookaside) (queue : List QueueEntry)
    (k a s i : Nat) (Quota : Bool) (heapAlloc : Option Nat) :
    (NtSetIoCompletion pool queue k a s i heapAlloc =
      IoSetIoCompletion pool queue k a s i true heapAlloc) ∧
    ((IoSetIoCompletion pool queue k a s i Quota heapAlloc).status =
        STATUS_INSUFFICIENT_RESOURCES ↔
      pool.P.ListHead = [] ∧ pool.L.ListHead = [] ∧ heapAlloc = none) ∧
    ((IoSetIoCompletion pool queue k a s i Quota heapAlloc).status =
        STATUS_INSUFFICIENT_RESOURCES →
      (IoSetIoCompletion pool queue k a s i Quota heapAlloc).queue = queue) ∧
    ((IoSetIoCompletion pool queue k a s i Quota heapAlloc).status ≠
        STATUS_INSUFFICIENT_RESOURCES →
      (IoSetIoCompletion pool queue k a s i Quota heapAlloc).status =
        STATUS_SUCCESS ∧
      ∃ pkt : IOP_MINI_COMPLETION_PACKET,
        (IoSetIoCompletion pool queue k a s i Quota heapAlloc).queue =
          queue ++ [QueueEntry.miniEntry pkt] ∧
        pkt.KeyContext = k ∧ pkt.ApcContext = a ∧ pkt.IoStatus = s ∧
        pkt.IoStatusInformation = i) ∧
    (∀ (pkt : IOP_MINI_COMPLETION_PACKET)
        (rest : List IOP_MINI_COMPLETION_PACKET),
      pool.P.ListHead = pkt :: rest →
      (IoSetIoCompletion pool queue k a s i Quota heapAlloc).allocatedId =
        some pkt.id) ∧
    (∀ (pkt : IOP_MINI_COMPLETION_PACKET)
        (rest : List IOP_MINI_COMPLETION_PACKET),
      pool.P.ListHead = [] → pool.L.ListHead = pkt :: rest →
      (IoSetIoCompletion pool queue k a s i Quota heapAlloc).allocatedId =
        some pkt.id) ∧
    (pool.P.ListHead = [] → pool.L.ListHead = [] →
      (IoSetIoCompletion pool queue k a s i Quota heapAlloc).allocatedId =
        heapAlloc) ∧
    (pool.P.ListHead = [] → pool.L.ListHead = [] →
      ∀ f : Nat, heapAlloc = some f →
      ∃ pkt : IOP_MINI_COMPLETION_PACKET,
        (IoSetIoCompletion pool queue k a s i Quota heapAlloc).queue =
          queue ++ [QueueEntry.miniEntry pkt] ∧
        pkt.id = f ∧
        pkt.PacketType =
          (if Quota then IOP_PACKET_TYPE.IopCompletionPacketQuota
            else IOP_PACKET_TYPE.IopCompletionPacketMini) ∧
        pkt.quotaCharged = Quota) := by
  obtain ⟨⟨PLH, PD, PTA, PAM, PTF, PFM⟩, LLH, LD, LTA, LAM, LTF, LFM⟩ := pool
  cases PLH with
  | cons pkt rest =>
      refine ⟨rfl, ?_, ?_, ?_, ?_, ?_, ?_, ?_⟩
      · simp [IoSetIoCompletion, STATUS_SUCCESS,
          STATUS_INSUFFICIENT_RESOURCES]
      · intro h
        simp [IoSetIoCompletion, STATUS_SUCCESS,
          STATUS_INSUFFICIENT_RESOURCES] at h
      · intro _
        exact ⟨rfl, _, rfl, rfl, rfl, rfl, rfl⟩
      · intro pkt0 rest0 h
        injection h with h1 _
        subst h1
        rfl
      · intro _ _ h _
        exact List.noConfusion h
      · intro h _
        exact List.noConfusion h
      · intro h _ _ _
        exact List.noConfusion h
  | nil =>
      cases LLH with
      | cons pkt rest =>
          refine ⟨rfl, ?_, ?_, ?_, ?_, ?_, ?_, ?_⟩
          · simp [IoSetIoCompletion, STATUS_SUCCESS,
              STATUS_INSUFFICIENT_RESOURCES]
          · intro h
            simp [IoSetIoCompletion, STATUS_SUCCESS,
              STATUS_INSUFFICIENT_RESOURCES] at h
          · intro _
            exact ⟨rfl, _, rfl, rfl, rfl, rfl, rfl⟩
          · intro _ _ h
            exact List.noConfusion h
          · intro pkt0 rest0 _ h
            injection h with h1 _
            subst h1
            rfl
          · intro _ h
            exact List.noConfusion h
          · intro _ h _ _
            exact List.noConfusion h
      | nil =>
          cases heapAlloc with
          | some f =>
              refine ⟨rfl, ?_, ?_, ?_, ?_, ?_, ?_, ?_⟩
              · simp [IoSetIoCompletion, STATUS_SUCCESS,
                  STATUS_INSUFFICIENT_RESOURCES]
              · intro h
                simp [IoSetIoCompletion, STATUS_SUCCESS,
                  STATUS_INSUFFICIENT_RESOURCES] at h
              · intro _
                exact ⟨rfl, _, rfl, rfl, rfl, rfl, rfl⟩
              · intro _ _ h
                exact List.noConfusion h
              · intro _ _ _ h
                exact List.noConfusion h
              · intro _ _
                rfl
              · intro _ _ f0 h
                injection h with h1
                subst h1
                exact ⟨_, rfl, rfl, rfl, rfl⟩
          | none =>
              refine ⟨rfl, ?_, ?_, ?_, ?_, ?_, ?_, ?_⟩
              · simp [IoSetIoCompletion, STATUS_INSUFFICIENT_RESOURCES]
              · intro _
                rfl
              · intro h
                exact absurd rfl h
              · intro _ _ h
                exact List.noConfusion h
              · intro _ _ _ h
                exact List.noConfusion h
              · intro _ _
                rfl
              · intro _ _ f h
                exact Option.noConfusion h

/-- Witness for C1: the two failure conditions and a success at concrete
states. -/
theorem IoSetIoCompletion_post_witness :
    ((IoSetIoCompletion emptyPool [] 1 2 3 4 true none).status =
        STATUS_INSUFFICIENT_RESOURCES ↔
      emptyPool.P.ListHead = [] ∧ emptyPool.L.ListHead = [] ∧
        (none : Option Nat) = none) ∧
    (emptyPool.P.ListHead = [] → emptyPool.L.ListHead = [] →
      (IoSetIoCompletion emptyPool [] 1 2 3 4 true (some 9)).allocatedId =
        some 9) :=
  ⟨(IoSetIoCompletion_post emptyPool [] 1 2 3 4 true none).2.1,
   fun h1 h2 =>
     (IoSetIoCompletion_post emptyPool [] 1 2 3 4 true (some 9)).2.2.2.2.2.2.1
       h1 h2⟩

/-- Freeing a quota-typed, still-charged packet releases its quota exactly
once, on every path of `IopFreeMiniPacket`. -/
theorem free_quota_release_one (pool : PPLookaside)
    (pkt : IOP_MINI_COMPLETION_PACKET)
    (ht : pkt.PacketType = IOP_PACKET_TYPE.IopCompletionPacketQuota)
    (hq : pkt.quotaCharged = true) :
    (IopFreeMiniPacket pool pkt).quotaReleases = 1 := by
  by_cases hP : pool.P.ListHead.length ≥ pool.P.Depth
  · by_cases hL : pool.L.ListHead.length ≥ pool.L.Depth
    · simp [IopFreeMiniPacket, hP, hL, ExFreePool, hq]
    · simp [IopFreeMiniPacket, hP, hL, ht, ExReturnPoolQuota, hq]
  · simp [IopFreeMiniPacket, hP, ht, ExReturnPoolQuota, hq]

/-- Freeing an uncharged packet releases no quota, on every path of
`IopFreeMiniPacket`. -/
theorem free_uncharged_release_zero (pool : PPLookaside)
    (pkt : IOP_MINI_COMPLETION_PACKET) (hq : pkt.quotaCharged = false) :
    (IopFreeMiniPacket pool pkt).quotaReleases = 0 := by
  by_cases hP : pool.P.ListHead.length ≥ pool.P.Depth
  · by_cases hL : pool.L.ListHead.length ≥ pool.L.Depth
    · simp [IopFreeMiniPacket, hP, hL, ExFreePool, hq]
    · by_cases ht : pkt.PacketType = IOP_PACKET_TYPE.IopCompletionPacketQuota
      · simp [IopFreeMiniPacket, hP, hL, ht, ExReturnPoolQuota, hq]
      · simp [IopFreeMiniPacket, hP, hL, ht]
  · by_cases ht : pkt.PacketType = IOP_PACKET_TYPE.IopCompletionPacketQuota
    · simp [IopFreeMiniPacket, hP, ht, ExReturnPoolQuota, hq]
    · simp [IopFreeMiniPacket, hP, ht]

/-- `IopFreeMiniPacket` keeps the lookaside tiers free of outstanding
quota charges. -/
theorem free_preserves_clean (pool : PPLookaside)
    (pkt : IOP_MINI_COMPLETION_PACKET) (hclean : tiersClean pool)
    (hcoh : pkt.quotaCharged = true →
      pkt.PacketType = IOP_PACKET_TYPE.IopCompletionPacketQuota) :
    tiersClean (IopFreeMiniPacket pool pkt).pool := by
  obtain ⟨hcP, hcL⟩ := hclean
  by_cases hP : pool.P.ListHead.length ≥ pool.P.Depth
  · by_cases hL : pool.L.ListHead.length ≥ pool.L.Depth
    · constructor
      · intro p hp
        simp only [IopFreeMiniPacket, hP, hL] at hp
        simp at hp
        exact hcP p hp
      · intro p hp
        simp only [IopFreeMiniPacket, hP, hL] at hp
        simp at hp
        exact hcL p hp
    · constructor
      · intro p hp
        simp only [IopFreeMiniPacket, hP, hL] at hp
        simp at hp
        exact hcP p hp
      · intro p hp
        simp only [IopFreeMiniPacket, hP, hL] at hp
        simp at hp
        rcases hp with h | h
        · rw [h]
          exact (pushed_packet_clean pkt hcoh).2
        · exact hcL p h
  · constructor
    · intro p hp
      simp only [IopFreeMiniPacket, hP] at hp
      simp at hp
      rcases hp with h | h
      · rw [h]
        exact (pushed_packet_clean pkt hcoh).2
      · exact hcP p h
    · intro p hp
      simp only [IopFreeMiniPacket, hP] at hp
      simp at hp
      exact hcL p hp

/-- C5: exactly one quota release occurs over the lifetime of a
quota-charged packet: `IopFreeMiniPacket` on a quota-typed, charged packet
releases quota exactly once (and zero times on an uncharged packet); the
lookaside tiers never hold a packet with an outstanding charge; and a
quota heap allocation by `IoSetIoCompletion` followed by either
`NtRemoveIoCompletion` or `IopDeleteIoCompletion` performs exactly one
release. -/
theorem quota_symmetry :
    (∀ (pool : PPLookaside) (pkt : IOP_MINI_COMPLETION_PACKET),
      pkt.PacketType = IOP_PACKET_TYPE.IopCompletionPacketQuota →
      pkt.quotaCharged = true →
      (IopFreeMiniPacket pool pkt).quotaReleases = 1) ∧
    (∀ (pool : PPLookaside) (pkt : IOP_MINI_COMPLETION_PACKET),
      pkt.quotaCharged = false →
      (IopFreeMiniPacket pool pkt).quotaReleases = 0) ∧
    (∀ (pool : PPLookaside) (pkt : IOP_MINI_COMPLETION_PACKET),
      tiersClean pool →
      (pkt.quotaCharged = true →
        pkt.PacketType = IOP_PACKET_TYPE.IopCompletionPacketQuota) →
      tiersClean (IopFreeMiniPacket pool pkt).pool) ∧
    (∀ (pool pool2 : PPLookaside) (k a s i f : Nat) (w : Bool),
      pool.P.ListHead = [] → pool.L.ListHead = [] →
      (NtRemoveIoCompletion pool2
        (IoSetIoCompletion pool [] k a s i true (some f)).queue
        WaitSignal.ready w).quotaReleases = 1) ∧
    (∀ (pool pool3 : PPLookaside) (k a s i f : Nat),
      pool.P.ListHead = [] → pool.L.ListHead = [] →
      (IopDeleteIoCompletion pool3
        (IoSetIoCompletion pool [] k a s i true (some f)).queue).quotaReleases
        = 1) := by
  refine ⟨free_quota_release_one, free_uncharged_release_zero,
    free_preserves_clean, ?_, ?_⟩
  · intro pool pool2 k a s i f w hP hL
    have hq : (IoSetIoCompletion pool [] k a s i true (some f)).queue =
        [QueueEntry.miniEntry
          { id := f, PacketType := IOP_PACKET_TYPE.IopCompletionPacketQuota,
            KeyContext := k, ApcContext := a, IoStatus := s,
            IoStatusInformation := i, quotaCharged := true }] := by
      simp [IoSetIoCompletion, hP, hL, KeInsertQueue]
    rw [hq]
    show (IopFreeMiniPacket pool2
      { id := f, PacketType := IOP_PACKET_TYPE.IopCompletionPacketQuota,
        KeyContext := k, ApcContext := a, IoStatus := s,
        IoStatusInformation := i, quotaCharged := true }).quotaReleases = 1
    exact free_quota_release_one pool2 _ rfl rfl
  · intro pool pool3 k a s i f hP hL
    have hq : (IoSetIoCompletion pool [] k a s i true (some f)).queue =
        [QueueEntry.miniEntry
          { id := f, PacketType := IOP_PACKET_TYPE.IopCompletionPacketQuota,
            KeyContext := k, ApcContext := a, IoStatus := s,
            IoStatusInformation := i, quotaCharged := true }] := by
      simp [IoSetIoCompletion, hP, hL, KeInsertQueue]
    rw [hq]
    show 0 + (IopFreeMiniPacket pool3
      { id := f, PacketType := IOP_PACKET_TYPE.IopCompletionPacketQuota,
        KeyContext := k, ApcContext := a, IoStatus := s,
        IoStatusInformation := i, quotaCharged := true }).quotaReleases = 1
    rw [free_quota_release_one pool3 _ rfl rfl]

/-- Witness for C5 at concrete states: one release on free of a charged
packet, zero on an uncharged one, clean tiers stay clean, and exactly one
release end-to-end through remove and through delete. -/
theorem quota_symmetry_witness :
    (IopFreeMiniPacket emptyPool pkt9).quotaReleases = 1 ∧
    (IopFreeMiniPacket emptyPool pkt42).quotaReleases = 0 ∧
    tiersClean (IopFreeMiniPacket pool42 pkt9).pool ∧
    (NtRemoveIoCompletion emptyPool
      (IoSetIoCompletion emptyPool [] 1 2 3 4 true (some 9)).queue
      WaitSignal.ready true).quotaReleases = 1 ∧
    (IopDeleteIoCompletion emptyPool
      (IoSetIoCompletion emptyPool [] 1 2 3 4 true
        (some 9)).queue).quotaReleases = 1 :=
  ⟨quota_symmetry.1 emptyPool pkt9 rfl rfl,
   quota_symmetry.2.1 emptyPool pkt42 rfl,
   quota_symmetry.2.2.1 pool42 pkt9 (by decide) (fun _ => rfl),
   quota_symmetry.2.2.2.1 emptyPool emptyPool 1 2 3 4 9 true rfl rfl,
   quota_symmetry.2.2.2.2 emptyPool emptyPool 1 2 3 4 9 rfl rfl⟩

/-- C7: starting from a single core whose per-processor tier holds a free
packet (and is under its depth limit), Allocate-Free-Allocate returns on
the second allocate a packet pointer-identical to the freed one (LIFO
reuse), and each call bumps the per-core tier's matching counter exactly
once (`TotalAllocates` per allocate, `TotalFrees` for the free), touching
no miss counter and leaving the shared tier untouched throughout. -/
theorem pool_round_trip (pool : PPLookaside) (queue q2 : List QueueEntry)
    (pkt : IOP_MINI_COMPLETION_PACKET)
    (rest : List IOP_MINI_COMPLETION_PACKET)
    (k a s i k2 a2 s2 i2 : Nat) (Quota Quota2 : Bool)
    (heap1 heap2 : Option Nat)
    (h1 : pool.P.ListHead = pkt :: rest)
    (h2 : rest.length < pool.P.Depth) :
    (IoSetIoCompletion pool queue k a s i Quota heap1).allocatedId =
      some pkt.id ∧
    (IoSetIoCompletion pool queue k a s i Quota heap1).pool.P.TotalAllocates =
      pool.P.TotalAllocates + 1 ∧
    (IoSetIoCompletion pool queue k a s i Quota heap1).pool.P.TotalFrees =
      pool.P.TotalFrees ∧
    (IoSetIoCompletion pool queue k a s i Quota heap1).pool.P.AllocateMisses =
      pool.P.AllocateMisses ∧
    (IoSetIoCompletion pool queue k a s i Quota heap1).pool.P.FreeMisses =
      pool.P.FreeMisses ∧
    (IoSetIoCompletion pool queue k a s i Quota heap1).pool.L = pool.L ∧
    ∃ pkt1 : IOP_MINI_COMPLETION_PACKET,
      pkt1.id = pkt.id ∧
      (IoSetIoCompletion pool queue k a s i Quota heap1).queue =
        queue ++ [QueueEntry.miniEntry pkt1] ∧
      (IopFreeMiniPacket
        (IoSetIoCompletion pool queue k a s i Quota heap1).pool
        pkt1).pool.P.TotalFrees = pool.P.TotalFrees + 1 ∧
      (IopFreeMiniPacket
        (IoSetIoCompletion pool queue k a s i Quota heap1).pool
        pkt1).pool.P.TotalAllocates = pool.P.TotalAllocates + 1 ∧
      (IopFreeMiniPacket
        (IoSetIoCompletion pool queue k a s i Quota heap1).pool
        pkt1).pool.P.FreeMisses = pool.P.FreeMisses ∧
      (IopFreeMiniPacket
        (IoSetIoCompletion pool queue k a s i Quota heap1).pool
        pkt1).pool.L = pool.L ∧
      (IoSetIoCompletion
        (IopFreeMiniPacket
          (IoSetIoCompletion pool queue k a s i Quota heap1).pool
          pkt1).pool
        q2 k2 a2 s2 i2 Quota2 heap2).allocatedId = some pkt.id ∧
      (IoSetIoCompletion
        (IopFreeMiniPacket
          (IoSetIoCompletion pool queue k a s i Quota heap1).pool
          pkt1).pool
        q2 k2 a2 s2 i2 Quota2 heap2).pool.P.TotalAllocates =
        pool.P.TotalAllocates + 2 ∧
      (IoSetIoCompletion
        (IopFreeMiniPacket
          (IoSetIoCompletion pool queue k a s i Quota heap1).pool
          pkt1).pool
        q2 k2 a2 s2 i2 Quota2 heap2).pool.P.TotalFrees =
        pool.P.TotalFrees + 1 ∧
      (IoSetIoCompletion
        (IopFreeMiniPacket
          (IoSetIoCompletion pool queue k a s i Quota heap1).pool
          pkt1).pool
        q2 k2 a2 s2 i2 Quota2 heap2).pool.P.AllocateMisses =
        pool.P.AllocateMisses ∧
      (IoSetIoCompletion
        (IopFreeMiniPacket
          (IoSetIoCompletion pool queue k a s i Quota heap1).pool
          pkt1).pool
        q2 k2 a2 s2 i2 Quota2 heap2).pool.L = pool.L := by
  have hnot : ¬ rest.length ≥ pool.P.Depth := by omega
  refine ⟨?_, ?_, ?_, ?_, ?_, ?_,
    ⟨installMini pkt k a s i,
     ?_, ?_, ?_, ?_, ?_, ?_, ?_, ?_, ?_, ?_, ?_⟩⟩ <;>
    simp [IoSetIoCompletion, IopFreeMiniPacket, h1, hnot, KeInsertQueue,
      installMini]

/-- Witness for C7 at a concrete warmed single-core pool. -/
theorem pool_round_trip_witness :
    pool42.P.ListHead = pkt42 :: [] ∧
    ([] : List IOP_MINI_COMPLETION_PACKET).length < pool42.P.Depth ∧
    (IoSetIoCompletion pool42 [] 1 2 3 4 false none).allocatedId =
      some pkt42.id :=
  ⟨rfl, by decide,
   (pool_round_trip pool42 [] [] pkt42 [] 1 2 3 4 5 6 7 8 false false
     none none rfl (by decide)).1⟩

/-- Draining lemma: fresh consumers arriving at a queue with no waiters
each receive the next pending entry in FIFO order as long as the ceiling
admits them, incrementing the active count by one per delivery. -/
theorem cqDrain (ts : List Nat) :
    ∀ (es rest : List Nat) (a K : Nat),
      es.length = ts.length → a + ts.length ≤ K →
      cqRemoveManyFresh
        { entries := es ++ rest, active := a, limit := K, waiters := [] }
        ts =
      (es.map CRemoveOutcome.delivered,
       { entries := rest, active := a + ts.length, limit := K,
         waiters := [] }) := by
  induction ts with
  | nil =>
      intro es rest a K hlen hK
      cases es with
      | nil => simp [cqRemoveManyFresh]
      | cons e es' => simp at hlen
  | cons t ts' ih =>
      intro es rest a K hlen hK
      cases es with
      | nil => simp at hlen
      | cons e es' =>
          simp only [List.length_cons] at hlen hK
          have ha : a < K := by omega
          have hstep :
              cqRemove
                { entries := (e :: es') ++ rest, active := a, limit := K,
                  waiters := [] } t false =
              (CRemoveOutcome.delivered e,
               ([],
                { entries := es' ++ rest, active := a + 1, limit := K,
                  waiters := [] })) := by
            simp [cqRemove, ha]
          simp only [cqRemoveManyFresh]
          rw [hstep]
          have ih' := ih es' rest (a + 1) K (by omega) (by omega)
          simp only []
          rw [ih']
          simp
          omega

/-- C9: with concurrency ceiling `K`, `K + 1` entries pending and `K + 1`
fresh consumers calling `Remove`, exactly the first `K` receive entries
immediately (FIFO); the last blocks as a waiter even though an entry is
pending, and it is handed the pending entry exactly when an active
consumer calls `Remove` again (de-activating itself). -/
theorem concurrency_ceiling (K : Nat) (hK : 1 ≤ K) (es ts : List Nat)
    (eK1 tK1 tact : Nat) (hes : es.length = K) (hts : ts.length = K) :
    (cqRemoveManyFresh
      { entries := es ++ [eK1], active := 0, limit := K, waiters := [] }
      ts).1 = es.map CRemoveOutcome.delivered ∧
    (cqRemoveManyFresh
      { entries := es ++ [eK1], active := 0, limit := K, waiters := [] }
      ts).2 =
      { entries := [eK1], active := K, limit := K, waiters := [] } ∧
    (cqRemove { entries := [eK1], active := K, limit := K, waiters := [] }
      tK1 false).1 = CRemoveOutcome.blocked ∧
    (cqRemove { entries := [eK1], active := K, limit := K, waiters := [] }
      tK1 false).2.2 =
      { entries := [eK1], active := K, limit := K, waiters := [tK1] } ∧
    (cqRemove
      { entries := [eK1], active := K, limit := K, waiters := [tK1] }
      tact true).2.1 = [(tK1, eK1)] := by
  have hdrain := cqDrain ts es [eK1] 0 K (by omega) (by omega)
  have h1 : K - 1 < K := by omega
  refine ⟨?_, ?_, ?_, ?_, ?_⟩
  · rw [hdrain]
  · rw [hdrain]
    simp [hts]
  · simp [cqRemove]
  · simp [cqRemove]
  · simp [cqRemove, h1]

/-- Witness for C9 at ceiling 2: two of three simultaneous consumers are
served, the third waits despite a pending entry, and is handed it when an
active consumer re-enters `Remove`. -/
theorem concurrency_ceiling_witness :
    (cqRemoveManyFresh
      { entries := [10, 11, 12], active := 0, limit := 2, waiters := [] }
      [1, 2]).1 =
      [CRemoveOutcome.delivered 10, CRemoveOutcome.delivered 11] ∧
    (cqRemove { entries := [12], active := 2, limit := 2, waiters := [] }
      3 false).1 = CRemoveOutcome.blocked ∧
    (cqRemove { entries := [12], active := 2, limit := 2, waiters := [3] }
      1 true).2.1 = [(3, 12)] :=
  ⟨(concurrency_ceiling 2 (by decide) [10, 11] [1, 2] 12 3 1 rfl rfl).1,
   (concurrency_ceiling 2 (by decide) [10, 11] [1, 2] 12 3 1 rfl
     rfl).2.2.1,
   (concurrency_ceiling 2 (by decide) [10, 11] [1, 2] 12 3 1 rfl
     rfl).2.2.2.2⟩
